import Mathlib

/-!
Verification of the resume-to-job matching core.

This file gives a shallow embedding of the scoring, ranking and skill-gap
code of the repository (src/match_stage4.py and src/app_matches_stearmlit.py)
and proves the specified properties about it.

Modelling conventions:
- Python floats are modelled as real numbers.
- numpy arrays are modelled as lists of reals; np.linalg.norm of a
  one-dimensional array is the square root of the sum of squares; np.dot of
  two equal-length arrays is the sum of pointwise products.
- Python truthiness on numbers and lists is modelled explicitly: a timestamp
  is falsy when it is absent or equal to zero, a vector is falsy when it is
  absent or empty.
- The ambient wall clock read by time.time() is passed in as an explicit
  argument named now.
- Python sorted with a key and reverse=True is a stable descending sort by
  that key; it is modelled by Mathlib insertion sort with the relation
  fun x y => key y ≤ key x, which inserts each element before the first
  element of not-larger key and therefore is stable in the same sense.
-/

open List

/-- Sum of pointwise products of two equal-length vectors: np.dot(a, b). -/
def dot (a b : List ℝ) : ℝ := (List.zipWith (fun x y => x * y) a b).sum

/-- Sum of squares of the entries of a vector. -/
def sumSq (v : List ℝ) : ℝ := (v.map (fun x => x * x)).sum

/-- Euclidean norm of a one-dimensional array: np.linalg.norm(v). -/
noncomputable def linalg_norm (v : List ℝ) : ℝ := Real.sqrt (sumSq v)

/-- The shared tail of both cosine_sim implementations (lines 24-27 of
src/match_stage4.py and lines 68-71 of src/app_matches_stearmlit.py), applied
to the possibly truncated arrays: guard the zero denominator, else divide the
dot product by the product of the norms. -/
noncomputable def cosine_body (a b : List ℝ) : ℝ :=
  if linalg_norm a * linalg_norm b = 0 then 0
  else dot a b / (linalg_norm a * linalg_norm b)

namespace MatchStage4

/-- cosine_sim from src/match_stage4.py: truncate both arrays to the shorter
length only when their shapes differ, then compute the guarded cosine. -/
noncomputable def cosine_sim (a b : List ℝ) : ℝ :=
  if a.length ≠ b.length then
    cosine_body (a.take (min a.length b.length)) (b.take (min a.length b.length))
  else
    cosine_body a b

end MatchStage4

namespace AppMatches

/-- cosine_sim from src/app_matches_stearmlit.py: always truncate both arrays
to the shorter length, then compute the guarded cosine. -/
noncomputable def cosine_sim (a b : List ℝ) : ℝ :=
  cosine_body (a.take (min a.length b.length)) (b.take (min a.length b.length))

end AppMatches

/-- keyword_overlap, defined identically in both source files: Jaccard index
of the two skill sets, with an early return of 0.0 when either set is empty. -/
noncomputable def keyword_overlap (resume_skills job_skills : List String) : ℝ :=
  if resume_skills.toFinset = ∅ ∨ job_skills.toFinset = ∅ then 0
  else ((resume_skills.toFinset ∩ job_skills.toFinset).card : ℝ) /
    ((resume_skills.toFinset ∪ job_skills.toFinset).card : ℝ)

/-- recency_weight, defined identically in both source files. The source
checks the Python truthiness of posted_ts, so both an absent timestamp and a
timestamp equal to zero take the 0.5 branch; otherwise the elapsed days since
posted_ts (negative elapsed time clamped to zero) feed an exponential decay
with a 30-day constant. The wall clock time.time() is the argument now. -/
noncomputable def recency_weight (now : ℝ) (posted_ts : Option ℝ) : ℝ :=
  match posted_ts with
  | none => 0.5
  | some t =>
    if t = 0 then 0.5
    else Real.exp (-(max 0 ((now - t) / 86400) / 30))

/-- final_score, defined identically in both source files: fixed-weight
combination of the four component signals. -/
noncomputable def final_score (sem kw rec : ℝ) (pop : ℝ := 0.5) : ℝ :=
  0.55 * sem + 0.25 * kw + 0.10 * rec + 0.10 * pop

/-- A job record as read from the jobs collection; only the fields the core
reads. The embedding vector and the posting timestamp are optional because
job.get returns None when the key is missing. -/
structure Job where
  title : String := ""
  company : String := ""
  location : String := ""
  url : String := ""
  vector : Option (List ℝ) := none
  required_skills : List String := []
  posted_at : Option ℝ := none

/-- One entry of the matches list built by the scoring loop of
src/match_stage4.py (lines 75-83). -/
structure MatchResult where
  title : String
  company : String
  location : String
  url : String
  score : ℝ
  semantic_similarity : ℝ
  keyword_overlap : ℝ

/-- Python truthiness of job.get("vector"): present and nonempty. -/
def has_vec (job : Job) : Bool :=
  match job.vector with
  | none => false
  | some v => !v.isEmpty

/-- The scoring loop of src/match_stage4.py (lines 65-83): for each job, skip
it when its vector is falsy (absent or empty), otherwise score it against the
resume and append a match record. The loop in src/app_matches_stearmlit.py
(lines 182-206) has the same skip structure. -/
noncomputable def score_jobs (now : ℝ) (resume_vec : List ℝ)
    (resume_skills : List String) (jobs : List Job) : List MatchResult :=
  jobs.filterMap fun job =>
    match job.vector with
    | none => none
    | some job_vec =>
      if job_vec.isEmpty then none
      else
        some
          { title := job.title
            company := job.company
            location := job.location
            url := job.url
            score := final_score (MatchStage4.cosine_sim resume_vec job_vec)
              (keyword_overlap resume_skills job.required_skills)
              (recency_weight now job.posted_at) 0.5
            semantic_similarity := MatchStage4.cosine_sim resume_vec job_vec
            keyword_overlap := keyword_overlap resume_skills job.required_skills }

noncomputable instance : DecidableRel fun x y : MatchResult => y.score ≤ x.score :=
  fun x y => Real.decidableLE y.score x.score

instance : IsTotal MatchResult fun x y : MatchResult => y.score ≤ x.score :=
  ⟨fun a b => le_total b.score a.score⟩

instance : IsTrans MatchResult fun x y : MatchResult => y.score ≤ x.score :=
  ⟨fun _ _ _ h1 h2 => le_trans h2 h1⟩

/-- The sort in sorted(matches, key=lambda x: x["score"], reverse=True): a
stable descending sort by score. -/
noncomputable def sort_matches (results : List MatchResult) : List MatchResult :=
  results.insertionSort fun x y => y.score ≤ x.score

/-- matches_sorted from line 86 of src/match_stage4.py and line 211 of
src/app_matches_stearmlit.py: stable descending sort by score, then truncate
to the first topN entries (10 in the batch script, 20 in the dashboard). -/
noncomputable def matches_sorted (results : List MatchResult) (topN : ℕ) : List MatchResult :=
  (sort_matches results).take topN

/-- all_job_skills from src/app_matches_stearmlit.py (lines 180-188): the
skills of every job that survives the vector truthiness check, concatenated
in corpus order. -/
def all_job_skills (jobs : List Job) : List String :=
  (jobs.filter has_vec).flatMap fun job => job.required_skills

/-- The distinct values of a list in order of first appearance, as collected
by the index of pandas Series.value_counts. -/
def distinct {α : Type} [DecidableEq α] : List α → List α
  | [] => []
  | x :: xs => x :: (distinct xs).filter fun y => decide (y ≠ x)

instance {α : Type} : DecidableRel fun p q : α × ℕ => q.2 ≤ p.2 :=
  fun p q => Nat.decLe q.2 p.2

instance {α : Type} : IsTotal (α × ℕ) fun p q : α × ℕ => q.2 ≤ p.2 :=
  ⟨fun a b => le_total b.2 a.2⟩

instance {α : Type} : IsTrans (α × ℕ) fun p q : α × ℕ => q.2 ≤ p.2 :=
  ⟨fun _ _ _ h1 h2 => le_trans h2 h1⟩

/-- pandas Series.value_counts: each distinct value paired with its number of
occurrences, sorted by descending count (stably, so ties keep the original
frequency-table order). -/
def value_counts {α : Type} [DecidableEq α] (l : List α) : List (α × ℕ) :=
  List.insertionSort (fun p q : α × ℕ => q.2 ≤ p.2)
    ((distinct l).map fun s => (s, l.count s))

/-- missing_counts from src/app_matches_stearmlit.py (lines 220-223): the
value counts of the corpus skills, restricted to the skills not present in
the resume skill set. -/
def missing_counts (skills resume_skills : List String) : List (String × ℕ) :=
  (value_counts skills).filter fun p => decide (p.1 ∉ resume_skills)

/-- The whole skill-gap computation of the dashboard: corpus skill collection
followed by counting, resume-skill removal and descending order. -/
def skill_gaps (jobs : List Job) (resume_skills : List String) : List (String × ℕ) :=
  missing_counts (all_job_skills jobs) resume_skills

/-- The guard clause: a zero denominator returns 0.0 instead of dividing. -/
theorem cosine_body_of_denom_zero (a b : List ℝ)
    (h : linalg_norm a * linalg_norm b = 0) : cosine_body a b = 0 := if_pos h

/-- Both branches of the stage-4 cosine agree with the always-truncate form,
because truncating to the common length is the identity when the lengths are
already equal. -/
theorem matchStage4_cosine_sim_eq (a b : List ℝ) :
    MatchStage4.cosine_sim a b =
      cosine_body (a.take (min a.length b.length)) (b.take (min a.length b.length)) := by
  unfold MatchStage4.cosine_sim
  by_cases h : a.length = b.length
  · have hmin : min a.length b.length = a.length := by rw [h, Nat.min_self]
    rw [if_neg (not_not_intro h), hmin, List.take_length, h, List.take_length]
  · rw [if_pos h]

theorem appMatches_cosine_sim_eq (a b : List ℝ) :
    AppMatches.cosine_sim a b =
      cosine_body (a.take (min a.length b.length)) (b.take (min a.length b.length)) := rfl

/-- Truncating two already-truncated vectors to their common length changes
nothing, so the cosine of the truncations is the cosine of the originals
after one truncation. -/
theorem cosine_body_take_take (a b : List ℝ) :
    cosine_body
      ((a.take (min a.length b.length)).take
        (min (a.take (min a.length b.length)).length (b.take (min a.length b.length)).length))
      ((b.take (min a.length b.length)).take
        (min (a.take (min a.length b.length)).length (b.take (min a.length b.length)).length))
    = cosine_body (a.take (min a.length b.length)) (b.take (min a.length b.length)) := by
  have h1 : (a.take (min a.length b.length)).length = min a.length b.length := by
    rw [List.length_take]; omega
  have h2 : (b.take (min a.length b.length)).length = min a.length b.length := by
    rw [List.length_take]; omega
  rw [h1, h2, Nat.min_self, List.take_take, Nat.min_self, List.take_take, Nat.min_self]

/-- C1: final_score computes 0.55·sem + 0.25·kw + 0.10·rec + 0.10·pop; it is
monotonic non-decreasing in each argument with the others fixed, maps
(1,1,1,1) to 1 and (0,0,0,0) to 0. -/
theorem final_score_weighted_monotone (sem kw rec pop : ℝ) :
    final_score sem kw rec pop = 0.55 * sem + 0.25 * kw + 0.10 * rec + 0.10 * pop
    ∧ (∀ x, sem ≤ x → final_score sem kw rec pop ≤ final_score x kw rec pop)
    ∧ (∀ x, kw ≤ x → final_score sem kw rec pop ≤ final_score sem x rec pop)
    ∧ (∀ x, rec ≤ x → final_score sem kw rec pop ≤ final_score sem kw x pop)
    ∧ (∀ x, pop ≤ x → final_score sem kw rec pop ≤ final_score sem kw rec x)
    ∧ final_score 1 1 1 1 = 1
    ∧ final_score 0 0 0 0 = 0 := by
  refine ⟨rfl, ?_, ?_, ?_, ?_, by norm_num [final_score], by norm_num [final_score]⟩ <;>
    · intro x hx
      unfold final_score
      have h1 := mul_le_mul_of_nonneg_left hx (show (0:ℝ) ≤ 0.55 by norm_num)
      have h2 := mul_le_mul_of_nonneg_left hx (show (0:ℝ) ≤ 0.25 by norm_num)
      have h3 := mul_le_mul_of_nonneg_left hx (show (0:ℝ) ≤ 0.10 by norm_num)
      linarith

/-- C1 witness: the theorem evaluated at concrete inputs. -/
theorem final_score_weighted_monotone_w :
    final_score 1 1 1 1 = 1 ∧ final_score 0 0 0 0 = 0
    ∧ final_score 0 0 0 0 ≤ final_score 1 0 0 0 :=
  ⟨(final_score_weighted_monotone 0 0 0 0).2.2.2.2.2.1,
   (final_score_weighted_monotone 0 0 0 0).2.2.2.2.2.2,
   (final_score_weighted_monotone 0 0 0 0).2.1 1 zero_le_one⟩

/-- C4: on vectors of different lengths, each cosine_sim equals itself applied
to both vectors truncated to the shorter length; both functions are total, so
a length mismatch never raises. -/
theorem cosine_sim_truncates (a b : List ℝ) (_h : a.length ≠ b.length) :
    MatchStage4.cosine_sim a b =
      MatchStage4.cosine_sim (a.take (min a.length b.length)) (b.take (min a.length b.length))
    ∧ AppMatches.cosine_sim a b =
      AppMatches.cosine_sim (a.take (min a.length b.length)) (b.take (min a.length b.length)) := by
  constructor
  · rw [matchStage4_cosine_sim_eq, matchStage4_cosine_sim_eq, cosine_body_take_take]
  · rw [appMatches_cosine_sim_eq, appMatches_cosine_sim_eq, cosine_body_take_take]

/-- C4 witness: the theorem evaluated on the mismatched pair [1, 0] and [1]. -/
theorem cosine_sim_truncates_w :
    MatchStage4.cosine_sim [1, 0] [1] =
      MatchStage4.cosine_sim (([1, 0] : List ℝ).take (min ([1, 0] : List ℝ).length ([1] : List ℝ).length))
        (([1] : List ℝ).take (min ([1, 0] : List ℝ).length ([1] : List ℝ).length))
    ∧ AppMatches.cosine_sim [1, 0] [1] =
      AppMatches.cosine_sim (([1, 0] : List ℝ).take (min ([1, 0] : List ℝ).length ([1] : List ℝ).length))
        (([1] : List ℝ).take (min ([1, 0] : List ℝ).length ([1] : List ℝ).length)) :=
  cosine_sim_truncates [1, 0] [1] (by decide)

/-- Every entry zero forces a zero sum of squares. -/
theorem sumSq_eq_zero_of_all_zero (v : List ℝ) (h : ∀ x ∈ v, x = 0) : sumSq v = 0 := by
  unfold sumSq
  apply List.sum_eq_zero
  intro y hy
  rw [List.mem_map] at hy
  obtain ⟨x, hx, rfl⟩ := hy
  rw [h x hx, mul_zero]

/-- C5: when the product of the truncated norms is exactly zero, both
cosine_sim implementations return 0.0 by the guard; in particular an
all-zero first vector forces the 0.0 return. -/
theorem cosine_sim_zero_denom_guard (a b : List ℝ) :
    (linalg_norm (a.take (min a.length b.length)) *
        linalg_norm (b.take (min a.length b.length)) = 0 →
      MatchStage4.cosine_sim a b = 0 ∧ AppMatches.cosine_sim a b = 0)
    ∧ ((∀ x ∈ a, x = 0) →
      MatchStage4.cosine_sim a b = 0 ∧ AppMatches.cosine_sim a b = 0) := by
  have hboth : linalg_norm (a.take (min a.length b.length)) *
      linalg_norm (b.take (min a.length b.length)) = 0 →
      MatchStage4.cosine_sim a b = 0 ∧ AppMatches.cosine_sim a b = 0 := by
    intro h
    rw [matchStage4_cosine_sim_eq, appMatches_cosine_sim_eq]
    exact ⟨cosine_body_of_denom_zero _ _ h, cosine_body_of_denom_zero _ _ h⟩
  refine ⟨hboth, fun hz => hboth ?_⟩
  have hs : sumSq (a.take (min a.length b.length)) = 0 :=
    sumSq_eq_zero_of_all_zero _ fun x hx => hz x (List.mem_of_mem_take hx)
  rw [linalg_norm, hs, Real.sqrt_zero, zero_mul]

/-- C5 witness: the theorem evaluated at the zero vector [0, 0] against
[1, 2]. -/
theorem cosine_sim_zero_denom_guard_w :
    MatchStage4.cosine_sim [0, 0] [1, 2] = 0 ∧ AppMatches.cosine_sim [0, 0] [1, 2] = 0 :=
  (cosine_sim_zero_denom_guard [0, 0] [1, 2]).2 (by simp)

/-- C9: the two cosine_sim implementations compute the same function: the
stage-4 one truncates exactly when the lengths differ, and when they are
equal the truncation the dashboard one performs is the identity. -/
theorem cosine_sim_implementations_agree (a b : List ℝ) :
    MatchStage4.cosine_sim a b = AppMatches.cosine_sim a b := by
  rw [matchStage4_cosine_sim_eq, appMatches_cosine_sim_eq]

/-- C3 counterexample: postedAt equal to 0 is a present timestamp, but the
Python truthiness check sends it to the 0.5 branch instead of the decay
formula; 30 days after the epoch the formula would give exp(-1) which is less
than one half. -/
theorem recency_weight_epoch_counterexample :
    ¬ (recency_weight 2592000 (some 0) =
        Real.exp (-(max 0 ((2592000 - 0) / 86400)) / 30)) := by
  have hL : recency_weight 2592000 (some 0) = 0.5 := by
    simp [recency_weight]
  have hmax : max (0:ℝ) ((2592000 - 0) / 86400) = 30 := by norm_num
  rw [hL, hmax]
  have h1 : -(30:ℝ) / 30 = -1 := by norm_num
  rw [h1]
  have h2 : (2:ℝ) < Real.exp 1 := lt_trans (by norm_num) Real.exp_one_gt_d9
  have h3 : Real.exp (-1) < 0.5 := by
    rw [Real.exp_neg]
    have h4 : (Real.exp 1)⁻¹ < 2⁻¹ := by
      apply inv_strictAnti₀ (by norm_num) h2
    calc (Real.exp 1)⁻¹ < 2⁻¹ := h4
      _ = 0.5 := by norm_num
  exact ne_of_gt h3

/-- C3 amended: recency_weight returns 0.5 when postedAt is absent or falsy
(equal to 0); for every present nonzero timestamp it returns
exp(-max(0, elapsedDays)/30); and the result is always strictly positive and
at most 1. -/
theorem recency_weight_spec (now : ℝ) (posted : Option ℝ) :
    (posted = none → recency_weight now posted = 0.5)
    ∧ (recency_weight now (some 0) = 0.5)
    ∧ (∀ t, posted = some t → t ≠ 0 →
        recency_weight now posted = Real.exp (-(max 0 ((now - t) / 86400)) / 30))
    ∧ 0 < recency_weight now posted
    ∧ recency_weight now posted ≤ 1 := by
  refine ⟨?_, ?_, ?_, ?_, ?_⟩
  · intro h; rw [h]; rfl
  · simp [recency_weight]
  · intro t ht h0
    rw [ht]
    simp only [recency_weight]
    rw [if_neg h0, neg_div]
  · cases posted with
    | none => norm_num [recency_weight]
    | some t =>
      by_cases h0 : t = 0
      · simp [recency_weight, h0]; norm_num
      · simp only [recency_weight]
        rw [if_neg h0]
        exact Real.exp_pos _
  · cases posted with
    | none => norm_num [recency_weight]
    | some t =>
      by_cases h0 : t = 0
      · simp [recency_weight, h0]; norm_num
      · simp only [recency_weight]
        rw [if_neg h0]
        apply Real.exp_le_one_iff.mpr
        have hd : 0 ≤ max 0 ((now - t) / 86400) / 30 :=
          div_nonneg (le_max_left 0 _) (by norm_num)
        linarith
/-- C3 witness: the amended theorem evaluated with an absent timestamp and
with a present one-day-old timestamp. -/
theorem recency_weight_spec_w :
    recency_weight 0 none = 0.5
    ∧ recency_weight 86400 (some 86400) =
        Real.exp (-(max 0 ((86400 - 86400) / 86400)) / 30)
    ∧ 0 < recency_weight 0 none :=
  ⟨(recency_weight_spec 0 none).1 rfl,
   (recency_weight_spec 86400 (some 86400)).2.2.1 86400 rfl (by norm_num),
   (recency_weight_spec 0 none).2.2.2.1⟩

/-- The unconditional closed form of keyword_overlap: even in the early-return
branch the Jaccard quotient evaluates to 0 because the intersection with an
empty set is empty (and 0/0 is 0 over the reals as divided here). -/
theorem keyword_overlap_eq (rs js : List String) :
    keyword_overlap rs js =
      ((rs.toFinset ∩ js.toFinset).card : ℝ) / ((rs.toFinset ∪ js.toFinset).card : ℝ) := by
  unfold keyword_overlap
  split_ifs with h
  · rcases h with h | h <;> simp [h]
  · rfl

/-- C6: keyword_overlap is the Jaccard index of the two skill sets, returns
0.0 when either set is empty, is symmetric, and lies in [0, 1]. -/
theorem keyword_overlap_jaccard (rs js : List String) :
    keyword_overlap rs js =
      ((rs.toFinset ∩ js.toFinset).card : ℝ) / ((rs.toFinset ∪ js.toFinset).card : ℝ)
    ∧ (rs.toFinset = ∅ ∨ js.toFinset = ∅ → keyword_overlap rs js = 0)
    ∧ keyword_overlap rs js = keyword_overlap js rs
    ∧ 0 ≤ keyword_overlap rs js ∧ keyword_overlap rs js ≤ 1 := by
  refine ⟨keyword_overlap_eq rs js, ?_, ?_, ?_, ?_⟩
  · intro h; unfold keyword_overlap; rw [if_pos h]
  · rw [keyword_overlap_eq, keyword_overlap_eq, Finset.inter_comm, Finset.union_comm]
  · rw [keyword_overlap_eq]; positivity
  · rw [keyword_overlap_eq]
    rcases Nat.eq_zero_or_pos (rs.toFinset ∪ js.toFinset).card with h | h
    · simp [h]
    · apply div_le_one_of_le₀
      · exact_mod_cast Finset.card_le_card (Finset.inter_subset_union)
      · positivity

/-- C6 witness: the theorem evaluated at concrete skill lists. -/
theorem keyword_overlap_jaccard_w :
    keyword_overlap ["python"] [] = 0
    ∧ keyword_overlap ["a"] ["b"] = keyword_overlap ["b"] ["a"]
    ∧ 0 ≤ keyword_overlap ["a"] ["b"] :=
  ⟨(keyword_overlap_jaccard ["python"] []).2.1 (Or.inr (by simp)),
   (keyword_overlap_jaccard ["a"] ["b"]).2.2.1,
   (keyword_overlap_jaccard ["a"] ["b"]).2.2.2.1⟩

/-- C7: a job whose vector is absent is skipped by the scoring loop rather
than scored, the loop is total (no error path), and an empty collection or a
collection in which every job lacks a vector yields the empty match list. -/
theorem score_jobs_skips_missing_vectors (now : ℝ) (rv : List ℝ) (rs : List String)
    (j : Job) (jobs : List Job) :
    (j.vector = none → score_jobs now rv rs (j :: jobs) = score_jobs now rv rs jobs)
    ∧ score_jobs now rv rs ([] : List Job) = []
    ∧ ((∀ j2 ∈ jobs, j2.vector = none) → score_jobs now rv rs jobs = []) := by
  refine ⟨fun h => by simp [score_jobs, List.filterMap_cons, h], rfl, ?_⟩
  induction jobs with
  | nil => intro _; rfl
  | cons a t ih =>
    intro h
    have ha := h a (List.mem_cons_self a t)
    have rest := ih fun x hx => h x (List.mem_cons_of_mem a hx)
    simp only [score_jobs, List.filterMap_cons, ha] at rest ⊢
    exact rest

/-- C7 witness: the theorem evaluated on a one-job collection whose only job
has no vector. -/
theorem score_jobs_skips_missing_vectors_w :
    score_jobs 0 [] [] [{ vector := none }] = score_jobs 0 [] [] []
    ∧ score_jobs 0 [] [] ([] : List Job) = [] :=
  ⟨(score_jobs_skips_missing_vectors 0 [] [] { vector := none } []).1 rfl,
   (score_jobs_skips_missing_vectors 0 [] [] { vector := none } []).2.1⟩

/-- Inserting one element with orderedInsert does not change the subsequence
of elements satisfying p, provided any two p-elements are related (so the
inserted element, when it satisfies p, lands before every p-element it was
inserted in front of). -/
theorem filter_orderedInsert_stable {α : Type} (r : α → α → Prop) [DecidableRel r]
    (p : α → Bool) (hp : ∀ u v, p u = true → p v = true → r u v) (x : α) :
    ∀ l : List α, (l.orderedInsert r x).filter p = (x :: l).filter p := by
  intro l
  induction l with
  | nil => rfl
  | cons b t ih =>
    by_cases hr : r x b
    · simp only [List.orderedInsert, if_pos hr]
    · simp only [List.orderedInsert, if_neg hr]
      by_cases hx : p x = true <;> by_cases hb : p b = true
      · exact absurd (hp x b hx hb) hr
      · simp [List.filter_cons, hx, hb, ih]
      · simp [List.filter_cons, hx, hb, ih]
      · simp [List.filter_cons, hx, hb, ih]

/-- Insertion sort is stable: it preserves the relative order of any class of
mutually related elements. -/
theorem filter_insertionSort_stable {α : Type} (r : α → α → Prop) [DecidableRel r]
    (p : α → Bool) (hp : ∀ u v, p u = true → p v = true → r u v) :
    ∀ l : List α, (l.insertionSort r).filter p = l.filter p := by
  intro l
  induction l with
  | nil => rfl
  | cons x t ih =>
    simp only [List.insertionSort]
    rw [filter_orderedInsert_stable r p hp x (t.insertionSort r)]
    simp [List.filter_cons, ih]

/-- C2: the ranking step returns min(topN, input length) entries, ordered
non-increasing by score, and as a pure function it returns the same output on
repeated invocation with identical input. -/
theorem matches_sorted_spec (results : List MatchResult) (topN : ℕ) :
    (matches_sorted results topN).length = min topN results.length
    ∧ List.Sorted (fun x y : MatchResult => y.score ≤ x.score) (matches_sorted results topN)
    ∧ matches_sorted results topN = matches_sorted results topN := by
  refine ⟨?_, ?_, rfl⟩
  · simp [matches_sorted, sort_matches]
  · have hs : List.Sorted (fun x y : MatchResult => y.score ≤ x.score) (sort_matches results) :=
      List.sorted_insertionSort _ _
    exact List.Pairwise.sublist (List.take_sublist _ _) hs

/-- C10: the sort inside the ranking step is stable: for every score value,
the results carrying that score appear in the sorted list in exactly their
input order, so ties are broken by original corpus order. -/
theorem sort_matches_stable (results : List MatchResult) (s : ℝ) :
    (sort_matches results).filter (fun m => decide (m.score = s))
      = results.filter fun m => decide (m.score = s) := by
  unfold sort_matches
  exact filter_insertionSort_stable _ _
    (fun u v hu hv => by
      simp only [decide_eq_true_eq] at hu hv
      rw [hu, hv]) results

/-- value_counts output is sorted by descending count. -/
theorem sorted_value_counts {α : Type} [DecidableEq α] (l : List α) :
    List.Sorted (fun p q : α × ℕ => q.2 ≤ p.2) (value_counts l) :=
  List.sorted_insertionSort _ _

/-- C8 counterexample: a job whose vector is absent contributes its skills to
no gap report, so the computation does not run over the full job corpus: with
one vectorless job requiring aws and an empty resume, the code reports no
gaps while a full-corpus count would report aws once. -/
theorem skill_gaps_not_full_corpus :
    skill_gaps [{ vector := none, required_skills := ["aws"] }] [] = []
    ∧ missing_counts (([{ vector := none, required_skills := ["aws"] }] : List Job).flatMap
        fun j => j.required_skills) [] = [("aws", 1)]
    ∧ skill_gaps [{ vector := none, required_skills := ["aws"] }] []
      ≠ missing_counts (([{ vector := none, required_skills := ["aws"] }] : List Job).flatMap
        fun j => j.required_skills) [] :=
  ⟨by decide, by decide, by decide⟩

/-- C8 amended: the skill-gap computation runs over the jobs that pass the
vector truthiness check (the same jobs that get scored), independent of the
ranking; it counts each skill once per job occurrence, removes the resume
skills, orders the rest by descending frequency, and on corpus skills
[python, aws, aws, java] with resume skills [python] it yields
[aws(2), java(1)]. -/
theorem skill_gaps_spec (jobs : List Job) (rs : List String) :
    (∀ j : Job, has_vec j = false → skill_gaps (j :: jobs) rs = skill_gaps jobs rs)
    ∧ (∀ p ∈ skill_gaps jobs rs, p.2 = (all_job_skills jobs).count p.1 ∧ p.1 ∉ rs)
    ∧ List.Pairwise (fun p q : String × ℕ => q.2 ≤ p.2) (skill_gaps jobs rs)
    ∧ missing_counts ["python", "aws", "aws", "java"] ["python"] = [("aws", 2), ("java", 1)] := by
  refine ⟨?_, ?_, ?_, by decide⟩
  · intro j hj
    simp [skill_gaps, all_job_skills, List.filter_cons, hj]
  · intro p hp
    unfold skill_gaps missing_counts at hp
    rw [List.mem_filter] at hp
    obtain ⟨hv, hpred⟩ := hp
    unfold value_counts at hv
    rw [List.mem_insertionSort, List.mem_map] at hv
    obtain ⟨s, _, rfl⟩ := hv
    exact ⟨rfl, by simpa using hpred⟩
  · have hs := sorted_value_counts (all_job_skills jobs)
    unfold skill_gaps missing_counts
    exact hs.filter _

/-- C8 witness: the amended theorem evaluated on a vectorless job and on the
concrete example corpus. -/
theorem skill_gaps_spec_w :
    skill_gaps [{ vector := none, required_skills := ["python"] }] [] = skill_gaps [] []
    ∧ missing_counts ["python", "aws", "aws", "java"] ["python"] = [("aws", 2), ("java", 1)] :=
  ⟨(skill_gaps_spec [] []).1 { vector := none, required_skills := ["python"] } rfl,
   (skill_gaps_spec [] []).2.2.2⟩
